import Mathlib

/-
Shallow embedding of the oldqtt connection manager
(src/app.rs and src/mqtt_servermanager.rs).

Modelling conventions:
- `HashMap<u32, V>` registries are embedded as association lists
  `List (Nat × V)` with replace-on-insert semantics (`regInsert`),
  `remove` (`regRemove`) and `get` (`regLookup`).
- `HashSet<String>` (the per-session `current_subs`) is embedded as a
  duplicate-free `List String`; `insert` adds only when absent,
  `take` is `List.erase`.
- Broker side effects (`rumqttc::Client::subscribe` / `unsubscribe` /
  `disconnect`) are embedded by explicit outputs: each manager operation
  additionally returns the list of session ids whose client was asked to
  disconnect, and the subscription operations take a predicate
  `String → Bool` telling which broker calls succeed, and report whether a
  broker call was issued.  These outputs instrument effects the Rust code
  performs; they change no control flow.
- The receive loop `Server::poll_iter` consumes
  `Result<rumqttc::Event, ConnectionError>` items from repeated runs of
  `connection.iter()`; each run is one `List PollItem`, and the outer
  `loop` walks the list of runs.
-/

namespace Oldqtt

/-- Event forwarded from a session's receive loop to the manager channel;
embeds `MqttServerManagerEvent` (a `Publish` packet plus the client id). -/
structure MqttServerManagerEvent where
  topic : String
  payload : String
  client : Nat
deriving Repr, DecidableEq

/-- One connected session; embeds `Server` from src/mqtt_servermanager.rs.
The `rumqttc::Client` handle, the spawned `JoinHandle` and the channel
sender carry no state relevant to the claims and are represented by the
instrumented outputs of the operations instead. -/
structure Session where
  id : Nat
  host : String
  port : Nat
  current_subs : List String
deriving Repr, DecidableEq

/-- Stored configuration of one server; embeds `MqttServer` from src/app.rs
(UI-only fields — display flags, draft input boxes, the message ring buffer
and its limits — are omitted; no claim touches them).  The raw `host` and
`port` strings are named `host_raw`/`port_raw` because Lean does not allow
a method and a field to share a name. -/
structure MqttServer where
  name : String
  host_raw : String
  port_raw : String
  subscriptions : List String
deriving Repr, DecidableEq

/-- Embeds Rust `str::parse::<u16>`: optional leading '+', then one or more
ASCII digits, with overflow beyond 65535 rejected; anything else fails. -/
def digitsToNatAux : List Char → Nat → Option Nat
  | [], acc => some acc
  | c :: cs, acc =>
    if c.isDigit then
      let acc' := acc * 10 + (c.toNat - 48)
      if acc' < 65536 then digitsToNatAux cs acc' else none
    else none

/-- Embeds `"...".parse::<u16>()` on a whole string. -/
def parseU16 (s : String) : Option Nat :=
  match s.data with
  | [] => none
  | '+' :: rest => if rest = [] then none else digitsToNatAux rest 0
  | l => digitsToNatAux l 0

/-- Embeds `MqttServer::port`: `self.port.parse().unwrap_or(1883)`. -/
def MqttServer.port (s : MqttServer) : Nat :=
  (parseU16 s.port_raw).getD 1883

/-- Embeds `MqttServer::host`: empty string falls back to `"127.0.0.1"`. -/
def MqttServer.host (s : MqttServer) : String :=
  if s.host_raw = "" then "127.0.0.1" else s.host_raw

/-- Association-list embedding of `HashMap::get`. -/
def regLookup {α : Type} (id : Nat) : List (Nat × α) → Option α
  | [] => none
  | p :: rest => if p.1 = id then some p.2 else regLookup id rest

/-- Association-list embedding of `HashMap::insert` (replaces any existing
entry under the key). -/
def regInsert {α : Type} (id : Nat) (v : α) (r : List (Nat × α)) :
    List (Nat × α) :=
  (id, v) :: r.filter (fun p => !(decide (p.1 = id)))

/-- Association-list embedding of `HashMap::remove`. -/
def regRemove {α : Type} (id : Nat) (r : List (Nat × α)) : List (Nat × α) :=
  r.filter (fun p => !(decide (p.1 = id)))

/-- The registry holds no two entries under the same key. -/
def keysNodup {α : Type} (r : List (Nat × α)) : Prop :=
  (r.map Prod.fst).Nodup

/-- Embeds `Server::connect`: builds the options from host/port/id, spawns
the receive loop, and unconditionally returns a fresh session with an empty
`current_subs` set.  The Rust function's return type is `Self`, not
`Result`: no failure is possible here. -/
def Server.connect (host : String) (port : Nat) (id : Nat) : Session :=
  ⟨id, host, port, []⟩

/-- Embeds `MqttServerManager::connect`: resolves host/port through the
config's defaulting accessors, creates a session and inserts it under `id`.
The second component lists the session ids whose client this call asked to
disconnect — the Rust code never does so here, and it surfaces no error. -/
def MqttServerManager.connect (r : List (Nat × Session)) (id : Nat)
    (srv : MqttServer) : List (Nat × Session) × List Nat :=
  (regInsert id (Server.connect (MqttServer.host srv) (MqttServer.port srv) id) r, [])

/-- Embeds `MqttServerManager::disconnect`: `remove` the session; when one
was present, ask its client to disconnect (errors are only logged). -/
def MqttServerManager.disconnect (r : List (Nat × Session)) (id : Nat) :
    List (Nat × Session) × List Nat :=
  match regLookup id r with
  | some _ => (regRemove id r, [id])
  | none => (r, [])

/-- Embeds `MqttServers::add_server` from src/app.rs.  The Rust code draws
`fastrand::u32(0..u32::MAX)` and inserts with no check that the key is
free; the random draw is passed in as `randId`. -/
def MqttServers.add_server (randId : Nat) (srv : MqttServer)
    (m : List (Nat × MqttServer)) : List (Nat × MqttServer) :=
  regInsert randId srv m

/-- Result of `Server::subscribe` / `Server::unsubscribe`: the session's
`current_subs` afterwards, whether the Rust function returned `Ok`
(`ok = true`) or an early `Err`, and whether a broker call was issued. -/
structure OpOut where
  cur : List String
  ok : Bool
  called : Bool
deriving Repr, DecidableEq

/-- Embeds `Server::subscribe`: `current_subs.insert(topic)` first; only
when the topic was newly inserted is the broker call issued, and a broker
failure returns `Err` — with the topic left inside `current_subs`. -/
def Server.subscribe (brokerOk : String → Bool) (cur : List String)
    (topic : String) : OpOut :=
  if topic ∈ cur then ⟨cur, true, false⟩
  else
    let cur' := topic :: cur
    if brokerOk topic then ⟨cur', true, true⟩ else ⟨cur', false, true⟩

/-- Embeds `Server::unsubscribe`: `current_subs.take(&topic)` first; only
when the topic was present is the broker call issued, and a broker failure
returns `Err` — with the topic already removed from `current_subs`. -/
def Server.unsubscribe (brokerOk : String → Bool) (cur : List String)
    (topic : String) : OpOut :=
  if topic ∈ cur then
    let cur' := cur.erase topic
    if brokerOk topic then ⟨cur', true, true⟩ else ⟨cur', false, true⟩
  else ⟨cur, true, false⟩

/-- Result of a `for`-loop over subscribe or unsubscribe operations:
final `current_subs`, whether every call returned `Ok`, and how many
broker calls were issued. -/
structure RunOut where
  cur : List String
  ok : Bool
  calls : Nat
deriving Repr, DecidableEq

/-- The `for sub in to_sub { self.subscribe(sub)?; }` loop of
`Server::sync_subs`: stops at the first `Err`. -/
def runSubs (brokerOk : String → Bool) :
    List String → List String → Nat → RunOut
  | [], cur, n => ⟨cur, true, n⟩
  | t :: ts, cur, n =>
    let r := Server.subscribe brokerOk cur t
    let n' := n + (if r.called then 1 else 0)
    if r.ok then runSubs brokerOk ts r.cur n' else ⟨r.cur, false, n'⟩

/-- The `for sub in to_unsub { self.unsubscribe(sub)?; }` loop of
`Server::sync_subs`: stops at the first `Err`. -/
def runUnsubs (brokerOk : String → Bool) :
    List String → List String → Nat → RunOut
  | [], cur, n => ⟨cur, true, n⟩
  | t :: ts, cur, n =>
    let r := Server.unsubscribe brokerOk cur t
    let n' := n + (if r.called then 1 else 0)
    if r.ok then runUnsubs brokerOk ts r.cur n' else ⟨r.cur, false, n'⟩

/-- The `to_sub` list computed by `Server::sync_subs`: desired topics not
currently tracked. -/
def toSub (cur subs : List String) : List String :=
  subs.filter (fun s => !(decide (s ∈ cur)))

/-- The `to_unsub` list computed by `Server::sync_subs`: tracked topics no
longer desired. -/
def toUnsub (cur subs : List String) : List String :=
  cur.filter (fun s => !(decide (s ∈ subs)))

/-- Result of `Server::sync_subs`: final `current_subs`, whether it
returned `Ok(())`, and the number of subscribe resp. unsubscribe broker
calls issued. -/
structure SyncOut where
  cur : List String
  ok : Bool
  subCalls : Nat
  unsubCalls : Nat
deriving Repr, DecidableEq

/-- Embeds `Server::sync_subs`: computes `to_sub` and `to_unsub` from the
current set, then applies the subscribes and the unsubscribes, the `?`
operator aborting the rest on the first failed call. -/
def Server.sync_subs (subOk unsubOk : String → Bool) (cur subs : List String) :
    SyncOut :=
  let r1 := runSubs subOk (toSub cur subs) cur 0
  if r1.ok then
    let r2 := runUnsubs unsubOk (toUnsub cur subs) r1.cur 0
    ⟨r2.cur, r2.ok, r1.calls, r2.calls⟩
  else ⟨r1.cur, false, r1.calls, 0⟩

/-- One item yielded by `connection.iter()` inside `Server::poll_iter`:
an `Ok` event (outgoing disconnect, incoming publish, or any other event
kind) or an iterator error. -/
inductive PollItem where
  | outgoingDisconnect
  | incomingPublish (topic : String) (payload : String)
  | otherEvent
  | connError
deriving Repr, DecidableEq

/-- The event an item forwards to the manager channel, if any: only
incoming publishes are forwarded. -/
def pubOf (id : Nat) : PollItem → Option MqttServerManagerEvent
  | PollItem.incomingPublish t p => some ⟨t, p, id⟩
  | _ => none

/-- The inner `for event in connection.iter()` loop of `Server::poll_iter`:
returns the events sent so far and whether the loop function returned.
Outgoing disconnect returns; publishes are forwarded; errors and all other
events are logged and the loop continues. -/
def pollInner (id : Nat) :
    List PollItem → List MqttServerManagerEvent →
    List MqttServerManagerEvent × Bool
  | [], sent => (sent, false)
  | item :: rest, sent =>
    match item with
    | PollItem.outgoingDisconnect => (sent, true)
    | PollItem.incomingPublish t p => pollInner id rest (sent ++ [⟨t, p, id⟩])
    | PollItem.otherEvent => pollInner id rest sent
    | PollItem.connError => pollInner id rest sent

/-- Embeds `Server::poll_iter`'s outer `loop`: each element of `runs` is
the item sequence of one `connection.iter()` run; when a run is exhausted
without a return, the outer loop re-enters the iteration on the next run.
Returns the forwarded events and whether the loop function returned within
the given runs. -/
def pollIter (id : Nat) :
    List (List PollItem) → List MqttServerManagerEvent × Bool
  | [] => ([], false)
  | b :: rest =>
    if (pollInner id b []).2 then ((pollInner id b []).1, true)
    else ((pollInner id b []).1 ++ (pollIter id rest).1, (pollIter id rest).2)

/-- The `while let Ok(event) = channel_rx.try_recv()` loop of
`MqttServerManager::pull_events`, draining the channel queue into the
events vector. -/
def pullLoop {E : Type} : List E → List E → List E × List E
  | [], events => (events, [])
  | e :: rest, events => pullLoop rest (events ++ [e])

/-- Embeds `MqttServerManager::pull_events`: drains the intake queue
(first component: the returned events; second: the queue afterwards). -/
def MqttServerManager.pull_events (q : List MqttServerManagerEvent) :
    List MqttServerManagerEvent × List MqttServerManagerEvent :=
  pullLoop q []

/-- A connect or disconnect call against the manager, for reasoning about
arbitrary call sequences. -/
inductive MgrCmd where
  | conn (id : Nat) (srv : MqttServer)
  | disc (id : Nat)

/-- Runs a sequence of connect/disconnect calls against the session
registry. -/
def runCmds : List MgrCmd → List (Nat × Session) → List (Nat × Session)
  | [], r => r
  | MgrCmd.conn id srv :: rest, r =>
      runCmds rest (MqttServerManager.connect r id srv).1
  | MgrCmd.disc id :: rest, r =>
      runCmds rest (MqttServerManager.disconnect r id).1

/-! ## Registry lemmas -/

theorem regLookup_regInsert_self {α : Type} (id : Nat) (v : α)
    (r : List (Nat × α)) : regLookup id (regInsert id v r) = some v := by
  simp [regInsert, regLookup]

theorem regLookup_filter_ne {α : Type} (id : Nat) (r : List (Nat × α)) :
    regLookup id (r.filter (fun p => !(decide (p.1 = id)))) = none := by
  induction r with
  | nil => rfl
  | cons p rest ih =>
    by_cases h : p.1 = id
    · simpa [List.filter_cons, h] using ih
    · simpa [List.filter_cons, h, regLookup] using ih

theorem regLookup_regRemove_self {α : Type} (id : Nat) (r : List (Nat × α)) :
    regLookup id (regRemove id r) = none :=
  regLookup_filter_ne id r

theorem regRemove_of_lookup_none {α : Type} (id : Nat) (r : List (Nat × α))
    (h : regLookup id r = none) : regRemove id r = r := by
  induction r with
  | nil => rfl
  | cons p rest ih =>
    by_cases hp : p.1 = id
    · simp [regLookup, hp] at h
    · simp only [regLookup, hp, if_false, if_neg hp] at h
      simp [regRemove, List.filter_cons, hp] at ih ⊢
      exact ih h

theorem keysNodup_filter {α : Type} (q : Nat × α → Bool)
    (r : List (Nat × α)) (h : keysNodup r) : keysNodup (r.filter q) :=
  List.Nodup.sublist (List.Sublist.map Prod.fst (List.filter_sublist r)) h

theorem keysNodup_regInsert {α : Type} (id : Nat) (v : α)
    (r : List (Nat × α)) (h : keysNodup r) : keysNodup (regInsert id v r) := by
  unfold keysNodup regInsert
  rw [List.map_cons, List.nodup_cons]
  refine ⟨?_, keysNodup_filter _ r h⟩
  simp only [List.mem_map, List.mem_filter, not_exists]
  rintro ⟨k, w⟩ ⟨⟨-, hk⟩, hfst⟩
  simp only [Bool.not_eq_true', decide_eq_false_iff_not] at hk
  exact hk hfst

theorem keysNodup_regRemove {α : Type} (id : Nat) (r : List (Nat × α))
    (h : keysNodup r) : keysNodup (regRemove id r) :=
  keysNodup_filter _ r h

theorem keysNodup_disconnect (r : List (Nat × Session)) (id : Nat)
    (h : keysNodup r) : keysNodup (MqttServerManager.disconnect r id).1 := by
  unfold MqttServerManager.disconnect
  cases regLookup id r with
  | none => exact h
  | some s => exact keysNodup_regRemove id r h

theorem runCmds_keysNodup (cmds : List MgrCmd) :
    ∀ r, keysNodup r → keysNodup (runCmds cmds r) := by
  induction cmds with
  | nil => exact fun r h => h
  | cons c rest ih =>
    intro r h
    cases c with
    | conn id srv => exact ih _ (keysNodup_regInsert id _ r h)
    | disc id => exact ih _ (keysNodup_disconnect r id h)

/-! ## Subscription lemmas -/

theorem toSub_mem (cur subs : List String) (x : String) :
    x ∈ toSub cur subs ↔ x ∈ subs ∧ x ∉ cur := by
  simp [toSub]

theorem toUnsub_mem (cur subs : List String) (x : String) :
    x ∈ toUnsub cur subs ↔ x ∈ cur ∧ x ∉ subs := by
  simp [toUnsub]

theorem subscribe_cur_mem (f : String → Bool) (cur : List String)
    (t x : String) :
    x ∈ (Server.subscribe f cur t).cur ↔ x = t ∨ x ∈ cur := by
  unfold Server.subscribe
  by_cases h : t ∈ cur
  · rw [if_pos h]
    constructor
    · exact Or.inr
    · rintro (rfl | hx)
      · exact h
      · exact hx
  · rw [if_neg h]
    cases hft : f t <;> simp [hft, List.mem_cons]

theorem subscribe_nodup (f : String → Bool) (cur : List String) (t : String)
    (h : cur.Nodup) : (Server.subscribe f cur t).cur.Nodup := by
  unfold Server.subscribe
  by_cases ht : t ∈ cur
  · rw [if_pos ht]; exact h
  · rw [if_neg ht]
    cases hft : f t <;> simp [hft, List.nodup_cons, ht, h]

theorem unsubscribe_cur_mem (f : String → Bool) (cur : List String)
    (t x : String) (h : cur.Nodup) :
    x ∈ (Server.unsubscribe f cur t).cur ↔ x ∈ cur ∧ x ≠ t := by
  unfold Server.unsubscribe
  by_cases ht : t ∈ cur
  · rw [if_pos ht]
    cases hft : f t <;> simp [hft, h.mem_erase_iff, and_comm]
  · rw [if_neg ht]
    constructor
    · exact fun hx => ⟨hx, fun e => ht (e ▸ hx)⟩
    · exact And.left

theorem unsubscribe_nodup (f : String → Bool) (cur : List String)
    (t : String) (h : cur.Nodup) : (Server.unsubscribe f cur t).cur.Nodup := by
  unfold Server.unsubscribe
  by_cases ht : t ∈ cur
  · rw [if_pos ht]
    cases hft : f t <;> simp [hft, h.erase t]
  · rw [if_neg ht]; exact h

theorem runSubs_nodup (f : String → Bool) (ts : List String) :
    ∀ cur n, cur.Nodup → (runSubs f ts cur n).cur.Nodup := by
  induction ts with
  | nil => exact fun cur n h => h
  | cons t ts ih =>
    intro cur n h
    simp only [runSubs]
    by_cases hok : (Server.subscribe f cur t).ok = true
    · rw [if_pos hok]
      exact ih _ _ (subscribe_nodup f cur t h)
    · rw [if_neg hok]
      exact subscribe_nodup f cur t h

theorem runSubs_ok_mem (f : String → Bool) (ts : List String) :
    ∀ cur n, (runSubs f ts cur n).ok = true →
      ∀ x, x ∈ (runSubs f ts cur n).cur ↔ x ∈ cur ∨ x ∈ ts := by
  induction ts with
  | nil => intro cur n _ x; simp [runSubs]
  | cons t ts ih =>
    intro cur n hok x
    simp only [runSubs] at hok ⊢
    by_cases h : (Server.subscribe f cur t).ok = true
    · rw [if_pos h] at hok ⊢
      rw [ih _ _ hok x, subscribe_cur_mem]
      simp only [List.mem_cons]
      tauto
    · rw [if_neg h] at hok
      simp at hok

theorem runUnsubs_nodup (f : String → Bool) (ts : List String) :
    ∀ cur n, cur.Nodup → (runUnsubs f ts cur n).cur.Nodup := by
  induction ts with
  | nil => exact fun cur n h => h
  | cons t ts ih =>
    intro cur n h
    simp only [runUnsubs]
    by_cases hok : (Server.unsubscribe f cur t).ok = true
    · rw [if_pos hok]
      exact ih _ _ (unsubscribe_nodup f cur t h)
    · rw [if_neg hok]
      exact unsubscribe_nodup f cur t h

theorem runUnsubs_ok_mem (f : String → Bool) (ts : List String) :
    ∀ cur n, cur.Nodup → (runUnsubs f ts cur n).ok = true →
      ∀ x, x ∈ (runUnsubs f ts cur n).cur ↔ x ∈ cur ∧ x ∉ ts := by
  induction ts with
  | nil => intro cur n _ _ x; simp [runUnsubs]
  | cons t ts ih =>
    intro cur n hn hok x
    simp only [runUnsubs] at hok ⊢
    by_cases h : (Server.unsubscribe f cur t).ok = true
    · rw [if_pos h] at hok ⊢
      rw [ih _ _ (unsubscribe_nodup f cur t hn) hok x,
        unsubscribe_cur_mem f cur t x hn]
      simp only [List.mem_cons]
      tauto
    · rw [if_neg h] at hok
      simp at hok

/-! ## Claim theorems -/

/-- C3 (counterexample): a connect call with a malformed host and a
non-numeric port does not fail — `MqttServerManager::connect` has no error
path at all; the session is created (with the port silently defaulted to
1883) and registered, and no error reaches the caller. -/
theorem connect_malformed_counterexample :
    regLookup 5 (MqttServerManager.connect [] 5
        ⟨"srv", "##not a host##", "not-a-port", ["x"]⟩).1
      = some ⟨5, "##not a host##", 1883, []⟩ ∧
    (MqttServerManager.connect [] 5
        ⟨"srv", "##not a host##", "not-a-port", ["x"]⟩).2 = [] := by
  exact ⟨rfl, rfl⟩

/-- C3 (amended): `connect` never fails synchronously: for every
configuration, malformed or not, it creates a fresh session (host/port
resolved through the defaulting accessors) and registers it under the key,
surfacing no error to the caller; in particular no error from the receive
loop is surfaced synchronously. -/
theorem connect_never_fails_sync (r : List (Nat × Session)) (id : Nat)
    (srv : MqttServer) :
    regLookup id (MqttServerManager.connect r id srv).1
      = some ⟨id, MqttServer.host srv, MqttServer.port srv, []⟩ ∧
    (MqttServerManager.connect r id srv).2 = [] :=
  ⟨regLookup_regInsert_self id _ r, rfl⟩

/-- C5 (counterexample): the freshly drawn key 7 is already in use, yet
`add_server` inserts under it anyway, silently replacing the existing
entry — the allocated key is not guaranteed to be free. -/
theorem add_server_collision_counterexample :
    regLookup 7 [(7, (⟨"a", "h1", "1883", []⟩ : MqttServer))]
      = some ⟨"a", "h1", "1883", []⟩ ∧
    MqttServers.add_server 7 ⟨"b", "h2", "1884", []⟩
        [(7, ⟨"a", "h1", "1883", []⟩)]
      = [(7, ⟨"b", "h2", "1884", []⟩)] :=
  ⟨rfl, rfl⟩

/-- C5 (amended): the key is drawn at random with no check against keys
already in use, a collision silently replacing the entry under that key
(the new config is what the key maps to afterwards); the registry itself,
being a keyed map, never contains two sessions under the same key for any
sequence of connect/disconnect calls. -/
theorem registry_keys_unique :
    (∀ cmds : List MgrCmd, keysNodup (runCmds cmds [])) ∧
    (∀ (randId : Nat) (srv : MqttServer) (m : List (Nat × MqttServer)),
      regLookup randId (MqttServers.add_server randId srv m) = some srv) :=
  ⟨fun cmds => runCmds_keysNodup cmds [] (by simp [keysNodup]),
   fun randId srv m => regLookup_regInsert_self randId srv m⟩

/-- C7: `disconnect(key)` leaves no session under the key; on an unknown
key it is a no-op returning no error and changing no state; on a known key
it asks exactly that session's client to disconnect. -/
theorem disconnect_removes_and_idempotent (r : List (Nat × Session))
    (id : Nat) :
    regLookup id (MqttServerManager.disconnect r id).1 = none ∧
    (regLookup id r = none → MqttServerManager.disconnect r id = (r, [])) ∧
    (∀ s, regLookup id r = some s →
      (MqttServerManager.disconnect r id).2 = [id]) := by
  refine ⟨?_, ?_, ?_⟩
  · unfold MqttServerManager.disconnect
    cases h : regLookup id r with
    | none => exact h
    | some s => exact regLookup_regRemove_self id r
  · intro h
    unfold MqttServerManager.disconnect
    rw [h]
  · intro s h
    unfold MqttServerManager.disconnect
    rw [h]

/-- Witness for C7 at concrete registries: removing a present key 1, and
the no-op on the never-connected key 2 of the empty registry. -/
theorem disconnect_removes_and_idempotent_witness :
    regLookup 1 (MqttServerManager.disconnect
        [(1, ⟨1, "h", 1883, []⟩)] 1).1 = none ∧
    MqttServerManager.disconnect ([] : List (Nat × Session)) 2 = ([], []) ∧
    (MqttServerManager.disconnect [(1, ⟨1, "h", 1883, []⟩)] 1).2 = [1] :=
  ⟨(disconnect_removes_and_idempotent [(1, ⟨1, "h", 1883, []⟩)] 1).1,
   (disconnect_removes_and_idempotent [] 2).2.1 rfl,
   (disconnect_removes_and_idempotent [(1, ⟨1, "h", 1883, []⟩)] 1).2.2
     ⟨1, "h", 1883, []⟩ rfl⟩

/-- C9: connecting again under a key already in the registry replaces the
session with a freshly created one (empty subscription set), and the call
asks no client — in particular not the displaced session's — to
disconnect. -/
theorem connect_replaces_without_disconnect (r : List (Nat × Session))
    (id : Nat) (srv : MqttServer) (sOld : Session)
    (_h : regLookup id r = some sOld) :
    regLookup id (MqttServerManager.connect r id srv).1
      = some ⟨id, MqttServer.host srv, MqttServer.port srv, []⟩ ∧
    (MqttServerManager.connect r id srv).2 = [] :=
  ⟨regLookup_regInsert_self id _ r, rfl⟩

/-- Witness for C9: key 3 holds a session with a tracked subscription; a
second connect under 3 yields the fresh session and requests no client
disconnect. -/
theorem connect_replaces_without_disconnect_witness :
    regLookup 3 (MqttServerManager.connect [(3, ⟨3, "h", 1, ["t"]⟩)] 3
        ⟨"n", "eh", "1884", []⟩).1
      = some ⟨3, MqttServer.host ⟨"n", "eh", "1884", []⟩,
               MqttServer.port ⟨"n", "eh", "1884", []⟩, []⟩ ∧
    (MqttServerManager.connect [(3, ⟨3, "h", 1, ["t"]⟩)] 3
        ⟨"n", "eh", "1884", []⟩).2 = [] :=
  connect_replaces_without_disconnect [(3, ⟨3, "h", 1, ["t"]⟩)] 3
    ⟨"n", "eh", "1884", []⟩ ⟨3, "h", 1, ["t"]⟩ rfl

theorem pullLoop_spec {E : Type} (q : List E) :
    ∀ acc, pullLoop q acc = (acc ++ q, []) := by
  induction q with
  | nil => intro acc; simp [pullLoop]
  | cons e rest ih => intro acc; simp [pullLoop, ih]

/-- C8: draining the intake queue returns every buffered event in order
and empties the queue; a second drain with no new arrivals returns the
empty sequence. -/
theorem pull_events_drains (q : List MqttServerManagerEvent) :
    MqttServerManager.pull_events q = (q, []) ∧
    (MqttServerManager.pull_events
      (MqttServerManager.pull_events q).2).1 = [] := by
  have h := pullLoop_spec q []
  constructor
  · simpa [MqttServerManager.pull_events] using h
  · simp [MqttServerManager.pull_events, h, pullLoop]

/-- C10: a stored port string that does not parse as a 16-bit unsigned
integer yields the default 1883, and an empty stored host yields
"127.0.0.1" — malformed input is silently defaulted, not rejected. -/
theorem port_host_defaults (srv : MqttServer) :
    (parseU16 srv.port_raw = none → MqttServer.port srv = 1883) ∧
    (srv.host_raw = "" → MqttServer.host srv = "127.0.0.1") := by
  constructor
  · intro h; simp [MqttServer.port, h]
  · intro h; simp [MqttServer.host, h]

/-- Witness for C10 at a config whose port string overflows a u16 and
whose host string is empty. -/
theorem port_host_defaults_witness :
    (parseU16 (MqttServer.mk "n" "" "70000" []).port_raw = none ∧
     MqttServer.port ⟨"n", "", "70000", []⟩ = 1883) ∧
    ((MqttServer.mk "n" "" "70000" []).host_raw = "" ∧
     MqttServer.host ⟨"n", "", "70000", []⟩ = "127.0.0.1") :=
  ⟨⟨by decide, (port_host_defaults ⟨"n", "", "70000", []⟩).1 (by decide)⟩,
   ⟨rfl, (port_host_defaults ⟨"n", "", "70000", []⟩).2 rfl⟩⟩

/-- C1: the operation lists computed by `Server::sync_subs` satisfy
`to_subscribe = desired − current` and `to_unsubscribe = current − desired`
(as sets of topics); hence `to_subscribe` is disjoint from `current`,
`to_unsubscribe ⊆ current`, and applying the subscribes and unsubscribes
to `current` yields exactly `desired`. -/
theorem reconcile_diff (cur subs : List String) :
    (∀ x, x ∈ toSub cur subs ↔ x ∈ subs ∧ x ∉ cur) ∧
    (∀ x, x ∈ toUnsub cur subs ↔ x ∈ cur ∧ x ∉ subs) ∧
    (∀ x, x ∈ toSub cur subs → x ∉ cur) ∧
    (∀ x, x ∈ toUnsub cur subs → x ∈ cur) ∧
    (∀ x, (x ∈ cur ∨ x ∈ toSub cur subs) ∧ x ∉ toUnsub cur subs
      ↔ x ∈ subs) := by
  refine ⟨toSub_mem cur subs, toUnsub_mem cur subs,
    fun x hx => ((toSub_mem cur subs x).1 hx).2,
    fun x hx => ((toUnsub_mem cur subs x).1 hx).1,
    fun x => ?_⟩
  rw [toSub_mem, toUnsub_mem]
  by_cases hc : x ∈ cur <;> by_cases hs : x ∈ subs <;> simp [hc, hs]

/-- C2 (counterexample): with a broker rejecting every call, syncing the
desired set {"a"} from an empty current set fails on the subscribe of
"a" — yet "a" ends up in the tracked current set, and the next sync with
the same desired set issues zero broker calls: the failed topic is not
retried. -/
theorem failed_subscribe_tracked_counterexample :
    (Server.sync_subs (fun _ => false) (fun _ => false) [] ["a"]).ok
      = false ∧
    "a" ∈ (Server.sync_subs (fun _ => false) (fun _ => false) [] ["a"]).cur ∧
    Server.sync_subs (fun _ => false) (fun _ => false)
        (Server.sync_subs (fun _ => false) (fun _ => false) [] ["a"]).cur
        ["a"]
      = ⟨["a"], true, 0, 0⟩ := by
  refine ⟨rfl, ?_, rfl⟩
  decide

/-- C2 (amended): when an individual subscribe (resp. unsubscribe) broker
call fails, the topic has already been inserted into (resp. removed from)
the tracked current set before the call, the failure is returned as an
error, and the next reconciliation does not list the topic again. -/
theorem failed_op_not_retried (f g : String → Bool) (cur : List String)
    (t : String) (later : List String) (hn : cur.Nodup) :
    (t ∉ cur → f t = false →
      (Server.subscribe f cur t).ok = false ∧
      t ∈ (Server.subscribe f cur t).cur ∧
      t ∉ toSub (Server.subscribe f cur t).cur later) ∧
    (t ∈ cur → g t = false →
      (Server.unsubscribe g cur t).ok = false ∧
      t ∉ (Server.unsubscribe g cur t).cur ∧
      t ∉ toUnsub (Server.unsubscribe g cur t).cur later) := by
  constructor
  · intro ht hf
    have hcur : (Server.subscribe f cur t).cur = t :: cur := by
      simp [Server.subscribe, ht, hf]
    have hok : (Server.subscribe f cur t).ok = false := by
      simp [Server.subscribe, ht, hf]
    refine ⟨hok, ?_, ?_⟩
    · rw [hcur]; exact List.mem_cons_self t cur
    · rw [toSub_mem, hcur]
      simp [List.mem_cons]
  · intro ht hg
    have hcur : (Server.unsubscribe g cur t).cur = cur.erase t := by
      simp [Server.unsubscribe, ht, hg]
    have hok : (Server.unsubscribe g cur t).ok = false := by
      simp [Server.unsubscribe, ht, hg]
    refine ⟨hok, ?_, ?_⟩
    · rw [hcur]
      exact fun hmem => (hn.mem_erase_iff.1 hmem).1 rfl
    · rw [toUnsub_mem, hcur]
      rintro ⟨hmem, -⟩
      exact (hn.mem_erase_iff.1 hmem).1 rfl

/-- Witness for the amended C2: a rejected subscribe of "a" (current
{"b"}) leaves "a" tracked and absent from the next `to_sub`; a rejected
unsubscribe of "b" leaves "b" untracked and absent from the next
`to_unsub`. -/
theorem failed_op_not_retried_witness :
    ((Server.subscribe (fun _ => false) ["b"] "a").ok = false ∧
     "a" ∈ (Server.subscribe (fun _ => false) ["b"] "a").cur ∧
     "a" ∉ toSub (Server.subscribe (fun _ => false) ["b"] "a").cur ["a"]) ∧
    ((Server.unsubscribe (fun _ => false) ["b"] "b").ok = false ∧
     "b" ∉ (Server.unsubscribe (fun _ => false) ["b"] "b").cur ∧
     "b" ∉ toUnsub (Server.unsubscribe (fun _ => false) ["b"] "b").cur []) :=
  ⟨(failed_op_not_retried (fun _ => false) (fun _ => false) ["b"] "a" ["a"]
      (by simp)).1 (by decide) rfl,
   (failed_op_not_retried (fun _ => false) (fun _ => false) ["b"] "b" []
      (by simp)).2 (by decide) rfl⟩

/-- C6: when `Server::sync_subs` returns `Ok` for the desired set `subs`,
the tracked current set equals `subs` (as a set of topics), and running
the sync again with the same desired set issues zero subscribe and zero
unsubscribe broker calls. -/
theorem sync_subs_success_idempotent (f g : String → Bool)
    (cur subs : List String) (hn : cur.Nodup)
    (hok : (Server.sync_subs f g cur subs).ok = true) :
    (∀ x, x ∈ (Server.sync_subs f g cur subs).cur ↔ x ∈ subs) ∧
    Server.sync_subs f g (Server.sync_subs f g cur subs).cur subs
      = ⟨(Server.sync_subs f g cur subs).cur, true, 0, 0⟩ := by
  by_cases h1 : (runSubs f (toSub cur subs) cur 0).ok = true
  case neg =>
    exfalso
    simp only [Server.sync_subs] at hok
    rw [if_neg h1] at hok
    simp at hok
  case pos =>
    have hok2 : (runUnsubs g (toUnsub cur subs)
        (runSubs f (toSub cur subs) cur 0).cur 0).ok = true := by
      simp only [Server.sync_subs] at hok
      rw [if_pos h1] at hok
      exact hok
    have hcur : (Server.sync_subs f g cur subs).cur
        = (runUnsubs g (toUnsub cur subs)
            (runSubs f (toSub cur subs) cur 0).cur 0).cur := by
      simp only [Server.sync_subs]
      rw [if_pos h1]
    have hn1 : (runSubs f (toSub cur subs) cur 0).cur.Nodup :=
      runSubs_nodup f (toSub cur subs) cur 0 hn
    have hmem : ∀ x, x ∈ (Server.sync_subs f g cur subs).cur ↔ x ∈ subs := by
      intro x
      rw [hcur, runUnsubs_ok_mem g (toUnsub cur subs) _ 0 hn1 hok2 x,
        runSubs_ok_mem f (toSub cur subs) cur 0 h1 x, toSub_mem, toUnsub_mem]
      by_cases hc : x ∈ cur <;> by_cases hs : x ∈ subs <;> simp [hc, hs]
    refine ⟨hmem, ?_⟩
    set c := (Server.sync_subs f g cur subs).cur with hc2
    have hts : toSub c subs = [] := by
      refine List.filter_eq_nil_iff.mpr (fun a ha => ?_)
      simp [(hmem a).mpr ha]
    have htu : toUnsub c subs = [] := by
      refine List.filter_eq_nil_iff.mpr (fun a ha => ?_)
      simp [(hmem a).mp ha]
    show Server.sync_subs f g c subs = ⟨c, true, 0, 0⟩
    simp only [Server.sync_subs, hts, htu]
    rfl

theorem pollInner_stop_iff (id : Nat) (b : List PollItem) :
    ∀ sent, ((pollInner id b sent).2 = true
      ↔ PollItem.outgoingDisconnect ∈ b) := by
  induction b with
  | nil => intro sent; simp [pollInner]
  | cons item rest ih =>
    intro sent
    cases item <;> simp [pollInner, ih, List.mem_cons]

theorem pollInner_events (id : Nat) (b : List PollItem) :
    ∀ sent, PollItem.outgoingDisconnect ∉ b →
      pollInner id b sent = (sent ++ b.filterMap (pubOf id), false) := by
  induction b with
  | nil => intro sent _; simp [pollInner]
  | cons item rest ih =>
    intro sent hnot
    simp only [List.mem_cons, not_or] at hnot
    cases item with
    | outgoingDisconnect => exact absurd rfl hnot.1
    | incomingPublish t p =>
      rw [show pollInner id (PollItem.incomingPublish t p :: rest) sent
            = pollInner id rest (sent ++ [⟨t, p, id⟩]) from rfl,
        ih _ hnot.2]
      simp [pubOf, List.filterMap_cons]
    | otherEvent =>
      rw [show pollInner id (PollItem.otherEvent :: rest) sent
            = pollInner id rest sent from rfl,
        ih _ hnot.2]
      simp [pubOf, List.filterMap_cons]
    | connError =>
      rw [show pollInner id (PollItem.connError :: rest) sent
            = pollInner id rest sent from rfl,
        ih _ hnot.2]
      simp [pubOf, List.filterMap_cons]

/-- C4: the receive loop returns exactly when some iterator run yields an
outgoing-disconnect acknowledgement; iterator errors and all other events
are passed over rather than terminating the loop, and when a run is
exhausted without a disconnect the outer loop continues with the next run,
still forwarding every incoming publish of every run. -/
theorem poll_iter_stops_only_on_disconnect (id : Nat)
    (runs : List (List PollItem)) :
    ((pollIter id runs).2 = true
      ↔ ∃ b ∈ runs, PollItem.outgoingDisconnect ∈ b) ∧
    ((∀ b ∈ runs, PollItem.outgoingDisconnect ∉ b) →
      pollIter id runs
        = ((runs.map (List.filterMap (pubOf id))).flatten, false)) := by
  induction runs with
  | nil => simp [pollIter]
  | cons b rest ih =>
    constructor
    · simp only [pollIter]
      by_cases hb : PollItem.outgoingDisconnect ∈ b
      · rw [if_pos ((pollInner_stop_iff id b []).mpr hb)]
        simp [hb]
      · rw [if_neg (fun h => hb ((pollInner_stop_iff id b []).mp h))]
        simp only [List.mem_cons]
        rw [ih.1]
        constructor
        · rintro ⟨c, hc, hd⟩; exact ⟨c, Or.inr hc, hd⟩
        · rintro ⟨c, (rfl | hc), hd⟩
          · exact absurd hd hb
          · exact ⟨c, hc, hd⟩
    · intro hnone
      have hb : PollItem.outgoingDisconnect ∉ b := hnone b (by simp)
      have hrest : ∀ c ∈ rest, PollItem.outgoingDisconnect ∉ c :=
        fun c hc => hnone c (List.mem_cons_of_mem b hc)
      simp only [pollIter]
      rw [if_neg (fun h => hb ((pollInner_stop_iff id b []).mp h)),
        pollInner_events id b [] hb, ih.2 hrest]
      simp

/-- Witness for C4: a run holding only an error does not stop the loop and
the next run's disconnect does; with no disconnect anywhere, an error is
skipped and the publish after it — and nothing else — is forwarded. -/
theorem poll_iter_stops_witness :
    (pollIter 1 [[PollItem.connError], [PollItem.outgoingDisconnect]]).2
      = true ∧
    pollIter 1 [[PollItem.connError, PollItem.incomingPublish "t" "p"], []]
      = ((([[PollItem.connError, PollItem.incomingPublish "t" "p"], []]).map
            (List.filterMap (pubOf 1))).flatten, false) :=
  ⟨(poll_iter_stops_only_on_disconnect 1
      [[PollItem.connError], [PollItem.outgoingDisconnect]]).1.mpr
      ⟨[PollItem.outgoingDisconnect], by simp, by simp⟩,
   (poll_iter_stops_only_on_disconnect 1
      [[PollItem.connError, PollItem.incomingPublish "t" "p"], []]).2
      (by decide)⟩

/-- Witness for C6: a fully successful sync from current {"old"} to
desired {"a"}; re-syncing with {"a"} issues zero broker calls. -/
theorem sync_subs_success_idempotent_witness :
    (∀ x, x ∈ (Server.sync_subs (fun _ => true) (fun _ => true)
        ["old"] ["a"]).cur ↔ x ∈ ["a"]) ∧
    Server.sync_subs (fun _ => true) (fun _ => true)
        (Server.sync_subs (fun _ => true) (fun _ => true) ["old"] ["a"]).cur
        ["a"]
      = ⟨(Server.sync_subs (fun _ => true) (fun _ => true)
            ["old"] ["a"]).cur, true, 0, 0⟩ :=
  sync_subs_success_idempotent (fun _ => true) (fun _ => true)
    ["old"] ["a"] (by simp) rfl

end Oldqtt
